import Mathlib

/-!
Shallow embedding of the order-processing core of the mealchoice-server
repository (order controller, `Order`/`Product` Mongoose models), together
with proofs of the specification claims about it.

Conventions of the embedding:
* Mongo ObjectIds are modelled as `Nat`.
* JS numbers used as money/quantities are modelled as `Nat` (all the code
  paths treated here only add, multiply, and subtract under a sufficient-stock
  guard, so no truncation is introduced).
* Timestamps (`Date.now`, `createdAt`) are modelled as `Int` milliseconds.
* The Mongo collections are modelled as `List Product` / `List Order`;
  `findById` is `List.find?` on the id, `save` writes the document back by id.
* Each controller is a pure function from its request arguments and the
  current collections to a result structure carrying the HTTP-level outcome
  and the new collections.
-/

namespace MealChoice

/-- Order status enumeration of the `Order` Mongoose schema:
`["pending", "confirmed", "preparing", "ready", "completed", "cancelled"]`. -/
inductive OrderStatus where
  | pending
  | confirmed
  | preparing
  | ready
  | completed
  | cancelled
deriving DecidableEq, Repr

/-- Rendering of a status back to its schema string (used in error and
history messages that interpolate the status). -/
def statusToString : OrderStatus → String
  | .pending => "pending"
  | .confirmed => "confirmed"
  | .preparing => "preparing"
  | .ready => "ready"
  | .completed => "completed"
  | .cancelled => "cancelled"

/-- A document of the `Product` collection (fields of `models/Product.js`
relevant to the order core). -/
structure Product where
  id : Nat
  seller : Nat
  name : String
  price : Nat
  quantity : Nat
  unit : String
  image : String
  marketLocation : String
  isAvailable : Bool
  lowStockThreshold : Nat
deriving DecidableEq, Repr

/-- An order line snapshot (`orderItemSchema` of `models/Order.js`). -/
structure OrderItem where
  product : Nat
  name : String
  price : Nat
  quantity : Nat
  unit : String
  image : String
deriving DecidableEq, Repr

/-- One entry of the append-only `statusHistory` array. -/
structure HistoryEntry where
  status : OrderStatus
  timestamp : Int
  note : String
deriving DecidableEq, Repr

/-- The delivery address block stored on an order. -/
structure DeliveryAddress where
  fullAddress : Option String
  barangay : Option String
  city : Option String
  province : Option String
  postalCode : Option String
  contactPhone : Option String
  deliveryNotes : Option String
deriving DecidableEq, Repr

/-- A document of the `Order` collection (`orderSchema` of
`models/Order.js`). -/
structure Order where
  id : Nat
  buyer : Nat
  seller : Nat
  items : List OrderItem
  total : Nat
  marketLocation : String
  notes : Option String
  paymentMethod : String
  paymentProof : Option String
  status : OrderStatus
  statusHistory : List HistoryEntry
  isPaymentVerified : Bool
  isArchived : Bool
  isHiddenByBuyer : Bool
  deliveryType : String
  deliveryAddress : Option DeliveryAddress
  createdAt : Int
deriving DecidableEq, Repr

/-- One line of the submitted cart (`items` of the create-order request
body). -/
structure CartItem where
  productId : Nat
  quantity : Nat
deriving DecidableEq, Repr

/-- A multipart upload staged by multer before the controller runs
(an element of `req.files`). -/
structure UploadedFile where
  fieldname : String
  filename : String
  path : String
deriving DecidableEq, Repr

/-- Errors produced by the order controllers, keeping the data that the
JS code interpolates into its response messages. -/
inductive ApiError where
  | emptyCart
  | notFound (productId : Nat)
  | orderNotFound
  | notAuthorized
  | insufficientStock (productName : String)
  | invalidStatus
  | invalidState (message : String)
  | badRequest (message : String)
deriving DecidableEq, Repr

/-- `Product.findById`, modelled on the product collection. -/
def findProduct (ps : List Product) (pid : Nat) : Option Product :=
  ps.find? (fun p => p.id == pid)

/-- `product.save()`: write a product document back into the collection by
its id. -/
def saveProduct (ps : List Product) (p : Product) : List Product :=
  ps.map (fun q => if q.id = p.id then p else q)

/-- `Order.findById`, modelled on the order collection. -/
def findOrder (os : List Order) (oid : Nat) : Option Order :=
  os.find? (fun o => o.id == oid)

/-- `order.save()`: write an order document back into the collection by its
id. -/
def saveOrder (os : List Order) (o : Order) : List Order :=
  os.map (fun q => if q.id = o.id then o else q)

/-- A per-seller bucket built by `createOrder` while walking the cart
(the value `ordersBySeller[sellerId]` in the source). -/
structure Bucket where
  seller : Nat
  marketLocation : String
  items : List OrderItem
  total : Nat
  paymentProof : Option String
deriving DecidableEq, Repr

/-- A low-stock notification emitted to a seller
(`emitLowStockNotification(sellerId, product)`). -/
structure LowStockEvent where
  seller : Nat
  product : Product
deriving DecidableEq, Repr

/-- The in-flight state of the cart-processing loop of `createOrder`:
the product collection (mutated by the stepwise decrements), the
insertion-ordered `ordersBySeller` association list, and the low-stock
events emitted so far. -/
structure ProcState where
  products : List Product
  buckets : List (Nat × Bucket)
  lowStockEvents : List LowStockEvent
deriving DecidableEq, Repr

/-- Result of processing one cart line: either the updated loop state, or
an abort carrying the state at the moment of failure (the DB mutations
already performed stay in place). -/
inductive LineResult where
  | ok (st : ProcState)
  | fail (st : ProcState) (e : ApiError)
deriving DecidableEq, Repr

/-- Lookup of `ordersBySeller[sellerId]`. -/
def getBucket (bs : List (Nat × Bucket)) (sid : Nat) : Option Bucket :=
  (bs.find? (fun x => x.1 == sid)).map Prod.snd

/-- Store back `ordersBySeller[sellerId] = b`, creating the key at the end
of the insertion order when absent (JS object key semantics). -/
def setBucket (bs : List (Nat × Bucket)) (sid : Nat) (b : Bucket) :
    List (Nat × Bucket) :=
  if (bs.find? (fun x => x.1 == sid)).isSome then
    bs.map (fun x => if x.1 = sid then (sid, b) else x)
  else
    bs ++ [(sid, b)]

/-- One iteration of the `for (const item of items)` loop of `createOrder`:
resolve the product, validate availability and stock, accumulate the line
into the owning seller's bucket, attach a payment proof staged under the
field name `proof_{sellerId}` if present, decrement the product's stock,
and emit a low-stock event when the post-decrement quantity is positive
and at or below the threshold. -/
def processLine (files : List UploadedFile) (st : ProcState) (item : CartItem) :
    LineResult :=
  match findProduct st.products item.productId with
  | none => .fail st (.notFound item.productId)
  | some product =>
    if product.isAvailable = false ∨ product.quantity < item.quantity then
      .fail st (.insufficientStock product.name)
    else
      let sellerId := product.seller
      let b0 : Bucket :=
        match getBucket st.buckets sellerId with
        | some b => b
        | none =>
          { seller := product.seller
            marketLocation := product.marketLocation
            items := []
            total := 0
            paymentProof := none }
      let b1 : Bucket :=
        { b0 with
          items := b0.items ++
            [{ product := product.id
               name := product.name
               price := product.price
               quantity := item.quantity
               unit := product.unit
               image := product.image }]
          total := b0.total + product.price * item.quantity }
      let b2 : Bucket :=
        match files.find? (fun f => f.fieldname == "proof_" ++ toString sellerId) with
        | some proofFile =>
          { b1 with paymentProof := some ("/uploads/receipts/" ++ proofFile.filename) }
        | none => b1
      let product' := { product with quantity := product.quantity - item.quantity }
      let events :=
        if product'.quantity ≤ product'.lowStockThreshold ∧ 0 < product'.quantity then
          st.lowStockEvents ++ [{ seller := sellerId, product := product' }]
        else
          st.lowStockEvents
      .ok { products := saveProduct st.products product'
            buckets := setBucket st.buckets sellerId b2
            lowStockEvents := events }

/-- The whole cart-processing loop: fold `processLine` over the cart,
aborting on the first failing line. -/
def processItems (files : List UploadedFile) : ProcState → List CartItem → LineResult
  | st, [] => .ok st
  | st, item :: rest =>
    match processLine files st item with
    | .ok st' => processItems files st' rest
    | .fail stf e => .fail stf e

/-- Construction of one Order document from a seller bucket
(the `Order.create` call of `createOrder`, combined with the schema
defaults `status = "pending"`, flag defaults, and the `pre("save")` hook of
`models/Order.js` that seeds `statusHistory` with a single
`"Order placed"` entry on a new document). -/
def mkOrder (buyer : Nat) (notes : Option String)
    (paymentMethods : List (Nat × String)) (deliveryType : Option String)
    (deliveryAddress : Option DeliveryAddress) (now : Int)
    (oid : Nat) (sid : Nat) (b : Bucket) : Order :=
  { id := oid
    buyer := buyer
    seller := b.seller
    items := b.items
    total := b.total
    marketLocation := b.marketLocation
    notes := notes
    paymentMethod := ((paymentMethods.find? (fun x => x.1 == sid)).map Prod.snd).getD "qr"
    paymentProof := b.paymentProof
    status := .pending
    statusHistory := [{ status := .pending, timestamp := now, note := "Order placed" }]
    isPaymentVerified := false
    isArchived := false
    isHiddenByBuyer := false
    deliveryType := deliveryType.getD "pickup"
    deliveryAddress :=
      if deliveryType = some "delivery" then deliveryAddress else none
    createdAt := now }

/-- The `for (const sellerId in ordersBySeller)` creation loop: one Order
per populated bucket, in insertion order, with fresh ids. -/
def mkOrders (buyer : Nat) (notes : Option String)
    (paymentMethods : List (Nat × String)) (deliveryType : Option String)
    (deliveryAddress : Option DeliveryAddress) (now : Int) :
    Nat → List (Nat × Bucket) → List Order
  | _, [] => []
  | oid, (sid, b) :: rest =>
    mkOrder buyer notes paymentMethods deliveryType deliveryAddress now oid sid b ::
      mkOrders buyer notes paymentMethods deliveryType deliveryAddress now (oid + 1) rest

/-- HTTP-level outcome of `createOrder`. -/
inductive CreateResponse where
  | created (orders : List Order)
  | error (e : ApiError)
deriving DecidableEq, Repr

/-- Full effect of one `createOrder` request: the response, the product
collection after the request, the created orders, the low-stock events
emitted, and the staged upload paths deleted by `fs.unlinkSync`. -/
structure CreateResult where
  response : CreateResponse
  products : List Product
  createdOrders : List Order
  lowStockEvents : List LowStockEvent
  deletedFiles : List String
deriving DecidableEq, Repr

/-- The `createOrder` controller. An empty cart is rejected up front and
every staged upload is deleted on that path. A `NotFound` or
`InsufficientStock` abort partway through the cart returns the error,
keeps the product mutations already performed, creates no order, and
(as in the source, whose early returns skip the cleanup) deletes no
staged upload. On success one Order per seller bucket is created. -/
def createOrder (buyer : Nat) (items : List CartItem) (notes : Option String)
    (paymentMethods : List (Nat × String)) (deliveryType : Option String)
    (deliveryAddress : Option DeliveryAddress) (files : List UploadedFile)
    (now : Int) (nextOrderId : Nat) (products : List Product) : CreateResult :=
  if items.isEmpty then
    { response := .error .emptyCart
      products := products
      createdOrders := []
      lowStockEvents := []
      deletedFiles := files.map (fun f => f.path) }
  else
    match processItems files ⟨products, [], []⟩ items with
    | .fail st e =>
      { response := .error e
        products := st.products
        createdOrders := []
        lowStockEvents := st.lowStockEvents
        deletedFiles := [] }
    | .ok st =>
      let orders := mkOrders buyer notes paymentMethods deliveryType deliveryAddress
        now nextOrderId st.buckets
      { response := .created orders
        products := st.products
        createdOrders := orders
        lowStockEvents := st.lowStockEvents
        deletedFiles := [] }

/-- Outcome of a mutation controller: the success payload or the error of
the JSON response. -/
inductive OpOutcome (α : Type) where
  | ok (val : α)
  | error (e : ApiError)
deriving DecidableEq, Repr

/-- Result of a single-order mutation controller: the response payload (the
mutated order, or a count for the bulk controllers), and the collections
after the request. -/
structure OpResult (α : Type) where
  result : OpOutcome α
  orders : List Order
  products : List Product
deriving DecidableEq, Repr

/-- `validStatuses` of `updateOrderStatus`:
`["pending", "preparing", "completed", "cancelled"]`. -/
def validStatuses : List OrderStatus :=
  [.pending, .preparing, .completed, .cancelled]

/-- The `updateOrderStatus` controller: enum-membership validation of the
requested status, ownership check, then write the new status and append
one history entry (with the supplied note, or a derived default). -/
def updateOrderStatus (oid userId : Nat) (newStatus : OrderStatus)
    (note : Option String) (now : Int) (orders : List Order)
    (products : List Product) : OpResult Order :=
  if newStatus ∉ validStatuses then
    ⟨.error .invalidStatus, orders, products⟩
  else
    match findOrder orders oid with
    | none => ⟨.error .orderNotFound, orders, products⟩
    | some order =>
      if order.seller ≠ userId then
        ⟨.error .notAuthorized, orders, products⟩
      else
        let order' :=
          { order with
            status := newStatus
            statusHistory := order.statusHistory ++
              [{ status := newStatus, timestamp := now
                 note := note.getD ("Status updated to " ++ statusToString newStatus) }] }
        ⟨.ok order', saveOrder orders order', products⟩

/-- The `verifyPayment` controller: ownership check only (no status guard),
then set `isPaymentVerified`, force status to `preparing`, and append the
corresponding history entry. -/
def verifyPayment (oid userId : Nat) (now : Int) (orders : List Order)
    (products : List Product) : OpResult Order :=
  match findOrder orders oid with
  | none => ⟨.error .orderNotFound, orders, products⟩
  | some order =>
    if order.seller ≠ userId then
      ⟨.error .notAuthorized, orders, products⟩
    else
      let order' :=
        { order with
          isPaymentVerified := true
          status := .preparing
          statusHistory := order.statusHistory ++
            [{ status := .preparing, timestamp := now
               note := "Payment verified and order confirmed by seller" }] }
      ⟨.ok order', saveOrder orders order', products⟩

/-- The stock-restoration loop of `cancelOrderByCustomer`: for each line
snapshot, if the live product still exists, add the ordered quantity back
and save. -/
def restoreStock (ps : List Product) (items : List OrderItem) : List Product :=
  items.foldl
    (fun ps item =>
      match findProduct ps item.product with
      | some product =>
        saveProduct ps { product with quantity := product.quantity + item.quantity }
      | none => ps)
    ps

/-- The history note written by a customer cancellation. -/
def cancelNote : Option String → String
  | some reason => "Cancelled by customer. Reason: " ++ reason
  | none => "Cancelled by customer"

/-- The `cancelOrderByCustomer` controller: ownership check, status gate on
`pending`/`confirmed` (the rejection message echoes the current status),
stock restoration, then status write and history append. -/
def cancelOrderByCustomer (oid buyerId : Nat) (reason : Option String)
    (now : Int) (orders : List Order) (products : List Product) : OpResult Order :=
  match findOrder orders oid with
  | none => ⟨.error .orderNotFound, orders, products⟩
  | some order =>
    if order.buyer ≠ buyerId then
      ⟨.error .notAuthorized, orders, products⟩
    else
      if order.status ∉ [OrderStatus.pending, OrderStatus.confirmed] then
        ⟨.error (.invalidState
            ("Order cannot be cancelled in its current status: " ++
              statusToString order.status)),
          orders, products⟩
      else
        let products' := restoreStock products order.items
        let order' :=
          { order with
            status := .cancelled
            statusHistory := order.statusHistory ++
              [{ status := .cancelled, timestamp := now, note := cancelNote reason }] }
        ⟨.ok order', saveOrder orders order', products'⟩

/-- The `archiveOrder` controller: ownership check, then the terminal-status
gate (`completed` or `cancelled`) regardless of the direction of the flag,
then write `isArchived`. -/
def archiveOrder (oid userId : Nat) (archive : Bool) (orders : List Order)
    (products : List Product) : OpResult Order :=
  match findOrder orders oid with
  | none => ⟨.error .orderNotFound, orders, products⟩
  | some order =>
    if order.seller ≠ userId then
      ⟨.error .notAuthorized, orders, products⟩
    else
      if order.status ∉ [OrderStatus.completed, OrderStatus.cancelled] then
        ⟨.error (.invalidState "Only completed or cancelled orders can be archived"),
          orders, products⟩
      else
        let order' := { order with isArchived := archive }
        ⟨.ok order', saveOrder orders order', products⟩

/-- The `bulkArchiveOrders` controller: reject an empty id list; fetch the
target orders restricted to the requesting seller and reject when any id is
missing or foreign; when archiving (and only then — the filter carries the
`archive &&` conjunct of the source) reject if any target is non-terminal;
otherwise apply one set-based update and report `orderIds.length`. -/
def bulkArchiveOrders (orderIds : List Nat) (userId : Nat) (archive : Bool)
    (orders : List Order) (products : List Product) : OpResult Nat :=
  if orderIds.isEmpty then
    ⟨.error (.badRequest "Please provide an array of order IDs"), orders, products⟩
  else
    let found := orders.filter (fun o => orderIds.contains o.id && o.seller == userId)
    if found.length ≠ orderIds.length then
      ⟨.error .notAuthorized, orders, products⟩
    else
      let nonArchivable := found.filter (fun o =>
        archive && !([OrderStatus.completed, OrderStatus.cancelled].contains o.status))
      if 0 < nonArchivable.length then
        ⟨.error (.invalidState "Only completed or cancelled orders can be archived"),
          orders, products⟩
      else
        ⟨.ok orderIds.length,
          orders.map (fun o =>
            if orderIds.contains o.id && o.seller == userId then
              { o with isArchived := archive }
            else o),
          products⟩

/-- The `bulkHideOrdersForBuyer` controller: reject an empty id list, then a
single `updateMany` restricted to listed, buyer-owned, terminal-status
orders, reporting Mongo's `modifiedCount` (documents whose
`isHiddenByBuyer` actually changed). -/
def bulkHideOrdersForBuyer (orderIds : List Nat) (buyerId : Nat)
    (orders : List Order) (products : List Product) : OpResult Nat :=
  if orderIds.isEmpty then
    ⟨.error (.badRequest "Please provide order IDs"), orders, products⟩
  else
    let toHide := fun (o : Order) =>
      orderIds.contains o.id && o.buyer == buyerId &&
        [OrderStatus.completed, OrderStatus.cancelled].contains o.status
    ⟨.ok ((orders.filter (fun o => toHide o && !o.isHiddenByBuyer)).length),
      orders.map (fun o => if toHide o then { o with isHiddenByBuyer := true } else o),
      products⟩

/-- One day in milliseconds. -/
def dayMs : Int := 86400000

/-- The date filter of the `period === "week"` branch of
`getSellerAnalytics`: `createdAt >= weekAgo`, where `weekAgo` is local
midnight of today minus seven days; there is no upper bound. -/
def weekAgo (startOfToday : Int) : Int := startOfToday - 7 * dayMs

/-- The base query of the week branch of `getSellerAnalytics`:
`Order.find({ seller: sellerId, createdAt: { $gte: weekAgo } })`. -/
def weekOrders (sellerId : Nat) (startOfToday : Int) (orders : List Order) :
    List Order :=
  orders.filter (fun o => o.seller == sellerId && weekAgo startOfToday ≤ o.createdAt)

/-- `totalRevenue` of the week branch of `getSellerAnalytics`: filter the
period's orders to `completed` and reduce `total`. -/
def weekTotalRevenue (sellerId : Nat) (startOfToday : Int) (orders : List Order) :
    Nat :=
  ((weekOrders sellerId startOfToday orders).filter
      (fun o => o.status == OrderStatus.completed)).foldl
    (fun sum o => sum + o.total) 0

/-! ### Specification-side definitions

Vocabulary used by the claim statements: per-line totals, the distinct
sellers spanned by a cart, requested/restored quantity sums, invariants of
the cart-processing loop, and the spec's notion of the weekly revenue
window. -/

/-- Price times quantity of one line snapshot. -/
def lineTotal (it : OrderItem) : Nat := it.price * it.quantity

/-- Sum of `price * quantity` over a list of line snapshots. -/
def itemsTotal (items : List OrderItem) : Nat := (items.map lineTotal).sum

/-- The sellers owning the cart's products, one entry per resolvable cart
line, in cart order. -/
def cartSellers (ps : List Product) (items : List CartItem) : List Nat :=
  items.filterMap (fun it => (findProduct ps it.productId).map Product.seller)

/-- Insert a key at the back unless already present (JS object key
creation order). -/
def insKey (acc : List Nat) (s : Nat) : List Nat :=
  if s ∈ acc then acc else acc ++ [s]

/-- First-occurrence deduplication of a list of ids. -/
def dedupFirst (l : List Nat) : List Nat := l.foldl insKey []

/-- Total quantity of a product requested across the cart lines naming it. -/
def requestedQty (items : List CartItem) (pid : Nat) : Nat :=
  ((items.filter (fun it => it.productId == pid)).map CartItem.quantity).sum

/-- Total quantity of a product across the line snapshots naming it. -/
def restoredQty (items : List OrderItem) (pid : Nat) : Nat :=
  ((items.filter (fun it => it.product == pid)).map OrderItem.quantity).sum

/-- The stepwise stock decrements never change which product ids resolve,
nor their owning sellers: the catalog seen during processing agrees with
the initial one on ids and sellers. -/
def Catalog (ps psInit : List Product) : Prop :=
  ∀ pid, (findProduct ps pid).map Product.seller =
    (findProduct psInit pid).map Product.seller

/-- Invariant of one seller bucket of `createOrder`: keyed by its seller,
its running total is the sum over its snapshots, it holds at least one
snapshot, and every snapshot's product is owned (in the initial catalog)
by that seller. -/
def BucketInv (psInit : List Product) (key : Nat) (b : Bucket) : Prop :=
  b.seller = key ∧ b.total = itemsTotal b.items ∧ b.items ≠ [] ∧
    ∀ it ∈ b.items,
      (findProduct psInit it.product).map Product.seller = some key

/-- All buckets of the loop state satisfy `BucketInv`. -/
def BucketsInv (psInit : List Product) (bs : List (Nat × Bucket)) : Prop :=
  ∀ x ∈ bs, BucketInv psInit x.1 x.2

/-- A terminal order status in the sense of the archival/visibility rules. -/
def terminal (s : OrderStatus) : Prop := s = .completed ∨ s = .cancelled

instance (s : OrderStatus) : Decidable (terminal s) := by
  unfold terminal
  infer_instance

/-- Spec-side eligibility for the buyer bulk-hide: listed, owned by the
requesting buyer, and in a terminal status. -/
def buyerHideEligible (orderIds : List Nat) (buyerId : Nat) (o : Order) : Bool :=
  decide (o.id ∈ orderIds ∧ o.buyer = buyerId ∧ terminal o.status)

/-- The weekly revenue as the claim words it: the manually computed sum of
`total` over the seller's completed orders with `createdAt` in the window
from `now - 7` days to `now`. -/
def claimedWeekRevenue (sellerId : Nat) (now : Int) (orders : List Order) : Nat :=
  ((orders.filter (fun o =>
      o.seller == sellerId && o.status == OrderStatus.completed &&
        decide (now - 7 * dayMs ≤ o.createdAt) && decide (o.createdAt ≤ now))).map
    (fun o => o.total)).sum

/-- The manually computed sum of `total` over the seller's completed orders
created at or after a cutoff instant (no upper bound). -/
def completedRevenueSince (sellerId : Nat) (cutoff : Int) (orders : List Order) :
    Nat :=
  ((orders.filter (fun o =>
      o.seller == sellerId && o.status == OrderStatus.completed &&
        decide (cutoff ≤ o.createdAt))).map (fun o => o.total)).sum

/-! ### General lemmas about the collection primitives -/

theorem findProduct_id {ps : List Product} {pid : Nat} {p : Product}
    (h : findProduct ps pid = some p) : p.id = pid := by
  simp only [findProduct] at h
  simpa using List.find?_some h

theorem findProduct_save_of_ne (ps : List Product) (p' : Product) (pid : Nat)
    (h : pid ≠ p'.id) :
    findProduct (saveProduct ps p') pid = findProduct ps pid := by
  induction ps with
  | nil => rfl
  | cons q qs ih =>
    simp only [findProduct, saveProduct, List.map_cons, List.find?_cons] at *
    by_cases hq : q.id = p'.id
    · have h1 : (p'.id == pid) = false := by simpa using fun e => h e.symm
      have h2 : (q.id == pid) = false := by simpa [hq] using fun e => h e.symm
      simp [hq, h1, h2, ih]
    · simp only [if_neg hq]
      by_cases hq2 : q.id = pid
      · simp [hq2]
      · have h2 : (q.id == pid) = false := by simpa using hq2
        simp [h2, ih]

theorem findProduct_save_self (ps : List Product) (pid : Nat) (p p' : Product)
    (h : findProduct ps pid = some p) (hid : p'.id = p.id) :
    findProduct (saveProduct ps p') pid = some p' := by
  induction ps with
  | nil => simp [findProduct] at h
  | cons q qs ih =>
    have hpid : p.id = pid := findProduct_id h
    simp only [findProduct, saveProduct, List.map_cons, List.find?_cons] at *
    by_cases hq : q.id = pid
    · have hbeq : (q.id == pid) = true := by simpa using hq
      simp only [hbeq, cond_true] at h
      have hq' : q.id = p'.id := by
        cases h
        omega
      have hbeq' : (p'.id == pid) = true := by
        simpa using hid.trans hpid
      simp [hq', hbeq']
    · have hbeq : (q.id == pid) = false := by simpa using hq
      simp only [hbeq, cond_false] at h
      have hqne : ¬ q.id = p'.id := by
        rw [hid, hpid]
        exact hq
      simp [if_neg hqne, hbeq, ih h]

theorem findOrder_id {os : List Order} {oid : Nat} {o : Order}
    (h : findOrder os oid = some o) : o.id = oid := by
  simp only [findOrder] at h
  simpa using List.find?_some h

theorem findOrder_save_self (os : List Order) (oid : Nat) (o o' : Order)
    (h : findOrder os oid = some o) (hid : o'.id = o.id) :
    findOrder (saveOrder os o') oid = some o' := by
  induction os with
  | nil => simp [findOrder] at h
  | cons q qs ih =>
    have hoid : o.id = oid := findOrder_id h
    simp only [findOrder, saveOrder, List.map_cons, List.find?_cons] at *
    by_cases hq : q.id = oid
    · have hbeq : (q.id == oid) = true := by simpa using hq
      simp only [hbeq, cond_true] at h
      have hq' : q.id = o'.id := by
        cases h
        omega
      have hbeq' : (o'.id == oid) = true := by
        simpa using hid.trans hoid
      simp [hq', hbeq']
    · have hbeq : (q.id == oid) = false := by simpa using hq
      simp only [hbeq, cond_false] at h
      have hqne : ¬ q.id = o'.id := by
        rw [hid, hoid]
        exact hq
      simp [if_neg hqne, hbeq, ih h]

/-! ### Lemmas about the cart-processing loop -/

theorem processLine_fail {files : List UploadedFile} {st : ProcState}
    {item : CartItem} {st2 : ProcState} {e : ApiError}
    (h : processLine files st item = .fail st2 e) :
    st2 = st ∧ (e = .notFound item.productId ∨ ∃ nm, e = .insufficientStock nm) := by
  unfold processLine at h
  split at h
  · injection h with h1 h2
    subst h1
    subst h2
    exact ⟨rfl, Or.inl rfl⟩
  · split at h
    · injection h with h1 h2
      subst h1
      subst h2
      exact ⟨rfl, Or.inr ⟨_, rfl⟩⟩
    · exact LineResult.noConfusion h

theorem processLine_ok_quantity {files : List UploadedFile} {st : ProcState}
    {item : CartItem} {st' : ProcState}
    (h : processLine files st item = .ok st') (pid : Nat) :
    (findProduct st'.products pid).map Product.quantity =
      if pid = item.productId then
        (findProduct st.products pid).map (fun p => p.quantity - item.quantity)
      else
        (findProduct st.products pid).map Product.quantity := by
  unfold processLine at h
  split at h
  · exact LineResult.noConfusion h
  next product hfind =>
    split at h
    · exact LineResult.noConfusion h
    next hav =>
      injection h with h2
      subst h2
      have hpid : product.id = item.productId := findProduct_id hfind
      by_cases hp : pid = item.productId
      · have hself := findProduct_save_self st.products item.productId product
          { product with quantity := product.quantity - item.quantity } hfind rfl
        simp only [hp]
        simp [hself, hfind]
      · have hne : pid ≠ ({ product with quantity := product.quantity - item.quantity } : Product).id := by
          simpa [hpid] using hp
        have hres := findProduct_save_of_ne st.products
          { product with quantity := product.quantity - item.quantity } pid hne
        simp [hres, hp]

theorem processItems_ok_quantity {files : List UploadedFile} :
    ∀ {items : List CartItem} {st st' : ProcState},
      processItems files st items = .ok st' → ∀ pid,
        (findProduct st'.products pid).map Product.quantity =
          (findProduct st.products pid).map
            (fun p => p.quantity - requestedQty items pid) := by
  intro items
  induction items with
  | nil =>
    intro st st' h pid
    injection h with h2
    subst h2
    cases hf : findProduct st.products pid <;> simp [requestedQty, hf]
  | cons item rest ih =>
    intro st st' h pid
    simp only [processItems] at h
    split at h
    next st1 hpl =>
      have hIH := ih h pid
      have hstep := processLine_ok_quantity hpl pid
      have hmid : (findProduct st1.products pid).map
          (fun p => p.quantity - requestedQty rest pid) =
          ((findProduct st1.products pid).map Product.quantity).map
            (fun q => q - requestedQty rest pid) := by
        cases hf : findProduct st1.products pid <;> simp [hf]
      rw [hIH, hmid, hstep]
      by_cases hp : pid = item.productId
      · have hbeq : (item.productId == pid) = true := by
          simpa using hp.symm
        have hreq : requestedQty (item :: rest) pid =
            item.quantity + requestedQty rest pid := by
          simp [requestedQty, List.filter_cons, hbeq]
        rw [if_pos hp, hreq]
        cases hf : findProduct st.products pid <;> simp [hf, Nat.sub_sub]
      · have hbeq : (item.productId == pid) = false := by
          simpa using fun e => hp e.symm
        have hreq : requestedQty (item :: rest) pid = requestedQty rest pid := by
          simp [requestedQty, List.filter_cons, hbeq]
        rw [if_neg hp, hreq]
        cases hf : findProduct st.products pid <;> simp [hf]
    next stf e hpl =>
      exact LineResult.noConfusion h

theorem processItems_append {files : List UploadedFile} (pre post : List CartItem) :
    ∀ {st st' : ProcState}, processItems files st pre = .ok st' →
      processItems files st (pre ++ post) = processItems files st' post := by
  induction pre with
  | nil =>
    intro st st' h
    injection h with h2
    subst h2
    rfl
  | cons item rest ih =>
    intro st st' h
    simp only [processItems, List.cons_append] at h ⊢
    split at h
    next st1 hpl =>
      exact ih h
    next stf e hpl =>
      exact LineResult.noConfusion h

theorem getBucket_mem {bs : List (Nat × Bucket)} {sid : Nat} {b : Bucket}
    (h : getBucket bs sid = some b) : (sid, b) ∈ bs := by
  simp only [getBucket] at h
  cases hf : bs.find? (fun x => x.1 == sid) with
  | none =>
    rw [hf] at h
    simp at h
  | some x =>
    rw [hf] at h
    have hx : x.1 = sid := by simpa using List.find?_some hf
    have hmem := List.mem_of_find?_eq_some hf
    injection h with h2
    rw [← h2, ← hx]
    simpa using hmem

theorem setBucket_mem {bs : List (Nat × Bucket)} {sid : Nat} {b : Bucket}
    {y : Nat × Bucket} (h : y ∈ setBucket bs sid b) : y = (sid, b) ∨ y ∈ bs := by
  simp only [setBucket] at h
  split at h
  · rcases List.mem_map.1 h with ⟨x, hx, hxy⟩
    by_cases hid : x.1 = sid
    · rw [if_pos hid] at hxy
      exact Or.inl hxy.symm
    · rw [if_neg hid] at hxy
      exact Or.inr (hxy ▸ hx)
  · rcases List.mem_append.1 h with hx | hx
    · exact Or.inr hx
    · simp only [List.mem_singleton] at hx
      exact Or.inl hx

theorem findKey_isSome {bs : List (Nat × Bucket)} {sid : Nat} :
    (bs.find? (fun x => x.1 == sid)).isSome = true ↔ sid ∈ bs.map Prod.fst := by
  induction bs with
  | nil => simp
  | cons x xs ih =>
    simp only [List.find?_cons, List.map_cons, List.mem_cons]
    by_cases hx : x.1 = sid
    · simp [hx]
    · have hb : (x.1 == sid) = false := by simpa using hx
      have hne : ¬ sid = x.1 := fun e => hx e.symm
      simp [hb, hne, ih]

theorem setBucket_keys (bs : List (Nat × Bucket)) (sid : Nat) (b : Bucket) :
    (setBucket bs sid b).map Prod.fst = insKey (bs.map Prod.fst) sid := by
  simp only [setBucket, insKey]
  by_cases hmem : sid ∈ bs.map Prod.fst
  · rw [if_pos (findKey_isSome.2 hmem), if_pos hmem, List.map_map]
    apply List.map_congr_left
    intro a _
    by_cases ha : a.1 = sid
    · simp [ha]
    · simp [ha]
  · have hnone : ¬ (bs.find? (fun x => x.1 == sid)).isSome = true := by
      rw [findKey_isSome]
      exact hmem
    rw [if_neg hnone, if_neg hmem, List.map_append]
    rfl

theorem processLine_ok_parts {files : List UploadedFile} {st : ProcState}
    {item : CartItem} {st' : ProcState}
    (h : processLine files st item = .ok st') :
    ∃ product b0 pp,
      findProduct st.products item.productId = some product ∧
      ¬(product.isAvailable = false ∨ product.quantity < item.quantity) ∧
      (getBucket st.buckets product.seller = some b0 ∨
        (getBucket st.buckets product.seller = none ∧
          b0 = ⟨product.seller, product.marketLocation, [], 0, none⟩)) ∧
      st'.products = saveProduct st.products
        { product with quantity := product.quantity - item.quantity } ∧
      st'.buckets = setBucket st.buckets product.seller
        ⟨b0.seller, b0.marketLocation,
          b0.items ++ [⟨product.id, product.name, product.price, item.quantity,
            product.unit, product.image⟩],
          b0.total + product.price * item.quantity, pp⟩ ∧
      st'.lowStockEvents =
        (if product.quantity - item.quantity ≤ product.lowStockThreshold ∧
            0 < product.quantity - item.quantity then
          st.lowStockEvents ++
            [⟨product.seller,
              { product with quantity := product.quantity - item.quantity }⟩]
        else st.lowStockEvents) := by
  unfold processLine at h
  split at h
  · exact LineResult.noConfusion h
  next product hfind =>
    split at h
    · exact LineResult.noConfusion h
    next hav =>
      simp only [] at h
      cases hgb : getBucket st.buckets product.seller with
      | some b0 =>
        rw [hgb] at h
        cases hfile : files.find?
            (fun f => f.fieldname == "proof_" ++ toString product.seller) with
        | some proofFile =>
          rw [hfile] at h
          injection h with h2
          subst h2
          exact ⟨product, b0, some ("/uploads/receipts/" ++ proofFile.filename),
            hfind, hav, Or.inl hgb, rfl, rfl, rfl⟩
        | none =>
          rw [hfile] at h
          injection h with h2
          subst h2
          exact ⟨product, b0, b0.paymentProof, hfind, hav, Or.inl hgb, rfl, rfl, rfl⟩
      | none =>
        rw [hgb] at h
        cases hfile : files.find?
            (fun f => f.fieldname == "proof_" ++ toString product.seller) with
        | some proofFile =>
          rw [hfile] at h
          injection h with h2
          subst h2
          exact ⟨product, ⟨product.seller, product.marketLocation, [], 0, none⟩,
            some ("/uploads/receipts/" ++ proofFile.filename),
            hfind, hav, Or.inr ⟨hgb, rfl⟩, rfl, rfl, rfl⟩
        | none =>
          rw [hfile] at h
          injection h with h2
          subst h2
          exact ⟨product, ⟨product.seller, product.marketLocation, [], 0, none⟩,
            none, hfind, hav, Or.inr ⟨hgb, rfl⟩, rfl, rfl, rfl⟩

theorem processLine_ok_inv {files : List UploadedFile} {st : ProcState}
    {item : CartItem} {st' : ProcState} {psInit : List Product}
    (h : processLine files st item = .ok st')
    (hcat : Catalog st.products psInit)
    (hinv : BucketsInv psInit st.buckets) :
    Catalog st'.products psInit ∧ BucketsInv psInit st'.buckets ∧
      ∃ s, (findProduct psInit item.productId).map Product.seller = some s ∧
        st'.buckets.map Prod.fst = insKey (st.buckets.map Prod.fst) s := by
  obtain ⟨product, b0, pp, hfind, hav, hb0, hps, hbk, hev⟩ := processLine_ok_parts h
  have hpid : product.id = item.productId := findProduct_id hfind
  have hseller : (findProduct psInit item.productId).map Product.seller =
      some product.seller := by
    rw [← hcat item.productId, hfind]
    rfl
  have hb0inv : b0.seller = product.seller ∧ b0.total = itemsTotal b0.items ∧
      ∀ it ∈ b0.items,
        (findProduct psInit it.product).map Product.seller = some product.seller := by
    rcases hb0 with hgb | ⟨hgb, hb0e⟩
    · have hbi := hinv _ (getBucket_mem hgb)
      exact ⟨hbi.1, hbi.2.1, hbi.2.2.2⟩
    · subst hb0e
      refine ⟨rfl, rfl, ?_⟩
      intro it hit
      simp at hit
  refine ⟨?_, ?_, product.seller, hseller, ?_⟩
  · intro pid
    rw [hps]
    by_cases hp : pid = item.productId
    · have hself := findProduct_save_self st.products item.productId product
        { product with quantity := product.quantity - item.quantity } hfind rfl
      rw [hp, hself, ← hcat item.productId, hfind]
      rfl
    · have hne : pid ≠ ({ product with
          quantity := product.quantity - item.quantity } : Product).id := by
        simpa [hpid] using hp
      rw [findProduct_save_of_ne st.products _ pid hne]
      exact hcat pid
  · intro y hy
    rw [hbk] at hy
    rcases setBucket_mem hy with hy2 | hy2
    · subst hy2
      refine ⟨hb0inv.1, ?_, by simp, ?_⟩
      · show b0.total + product.price * item.quantity = itemsTotal (b0.items ++ _)
        rw [hb0inv.2.1]
        simp [itemsTotal, lineTotal]
      · intro it hit
        rcases List.mem_append.1 hit with hold | hnew
        · exact hb0inv.2.2 it hold
        · simp only [List.mem_singleton] at hnew
          subst hnew
          show (findProduct psInit product.id).map Product.seller = some product.seller
          rw [hpid]
          exact hseller
    · exact hinv y hy2
  · rw [hbk, setBucket_keys]

theorem processItems_ok_inv {files : List UploadedFile} :
    ∀ {items : List CartItem} {st st' : ProcState} {psInit : List Product},
      processItems files st items = .ok st' →
      Catalog st.products psInit →
      BucketsInv psInit st.buckets →
      Catalog st'.products psInit ∧ BucketsInv psInit st'.buckets ∧
        st'.buckets.map Prod.fst =
          (cartSellers psInit items).foldl insKey (st.buckets.map Prod.fst) := by
  intro items
  induction items with
  | nil =>
    intro st st' psInit h hcat hinv
    injection h with h2
    subst h2
    exact ⟨hcat, hinv, by simp [cartSellers]⟩
  | cons item rest ih =>
    intro st st' psInit h hcat hinv
    simp only [processItems] at h
    split at h
    next st1 hpl =>
      obtain ⟨hcat1, hinv1, s, hs, hkeys⟩ := processLine_ok_inv hpl hcat hinv
      obtain ⟨hcat2, hinv2, hkeys2⟩ := ih h hcat1 hinv1
      refine ⟨hcat2, hinv2, ?_⟩
      have hcart : cartSellers psInit (item :: rest) =
          s :: cartSellers psInit rest := by
        simp [cartSellers, List.filterMap_cons, hs]
      rw [hcart, List.foldl_cons, ← hkeys]
      exact hkeys2
    next stf e hpl =>
      exact LineResult.noConfusion h

theorem mkOrders_map_seller (buyer : Nat) (notes : Option String)
    (pm : List (Nat × String)) (dt : Option String) (da : Option DeliveryAddress)
    (now : Int) :
    ∀ (oid : Nat) (bs : List (Nat × Bucket)),
      (mkOrders buyer notes pm dt da now oid bs).map Order.seller =
        bs.map (fun x => x.2.seller) := by
  intro oid bs
  induction bs generalizing oid with
  | nil => rfl
  | cons x xs ih =>
    obtain ⟨sid, b⟩ := x
    simp [mkOrders, mkOrder, ih]

theorem mem_mkOrders (buyer : Nat) (notes : Option String)
    (pm : List (Nat × String)) (dt : Option String) (da : Option DeliveryAddress)
    (now : Int) :
    ∀ (oid : Nat) (bs : List (Nat × Bucket)) (o : Order),
      o ∈ mkOrders buyer notes pm dt da now oid bs →
      ∃ x ∈ bs, ∃ oid2, o = mkOrder buyer notes pm dt da now oid2 x.1 x.2 := by
  intro oid bs
  induction bs generalizing oid with
  | nil =>
    intro o ho
    simp [mkOrders] at ho
  | cons x xs ih =>
    obtain ⟨sid, b⟩ := x
    intro o ho
    simp only [mkOrders, List.mem_cons] at ho
    rcases ho with ho | ho
    · exact ⟨(sid, b), List.mem_cons_self _ _, oid, ho⟩
    · obtain ⟨x2, hx2, oid2, he⟩ := ih (oid + 1) o ho
      exact ⟨x2, List.mem_cons_of_mem _ hx2, oid2, he⟩

theorem insKey_nodup {acc : List Nat} (h : acc.Nodup) (s : Nat) :
    (insKey acc s).Nodup := by
  unfold insKey
  split
  · exact h
  next hmem =>
    simp [List.nodup_append, h, hmem]

theorem foldl_insKey_nodup (l : List Nat) :
    ∀ acc : List Nat, acc.Nodup → (l.foldl insKey acc).Nodup := by
  induction l with
  | nil =>
    intro acc h
    exact h
  | cons s rest ih =>
    intro acc h
    exact ih _ (insKey_nodup h s)

theorem dedupFirst_nodup (l : List Nat) : (dedupFirst l).Nodup :=
  foldl_insKey_nodup l [] List.nodup_nil

theorem restoreStock_quantity :
    ∀ (items : List OrderItem) (ps : List Product) (pid : Nat),
      (findProduct (restoreStock ps items) pid).map Product.quantity =
        (findProduct ps pid).map (fun p => p.quantity + restoredQty items pid) := by
  intro items
  induction items with
  | nil =>
    intro ps pid
    cases hf : findProduct ps pid <;> simp [restoreStock, restoredQty, hf]
  | cons it rest ih =>
    intro ps pid
    have hstep : restoreStock ps (it :: rest) = restoreStock
        (match findProduct ps it.product with
          | some product =>
            saveProduct ps { product with quantity := product.quantity + it.quantity }
          | none => ps) rest := rfl
    rw [hstep]
    cases hf : findProduct ps it.product with
    | some p =>
      simp only []
      rw [ih]
      by_cases hp : pid = it.product
      · have hself := findProduct_save_self ps it.product p
          { p with quantity := p.quantity + it.quantity } hf rfl
        have hbeq : (it.product == pid) = true := by simpa using hp.symm
        rw [hp, hself, hf]
        simp [restoredQty, List.filter_cons, hbeq, Nat.add_assoc]
      · have hne : pid ≠ ({ p with quantity := p.quantity + it.quantity } : Product).id := by
          have hpid : p.id = it.product := findProduct_id hf
          simpa [hpid] using hp
        have hbeq : (it.product == pid) = false := by
          simpa using fun e => hp e.symm
        rw [findProduct_save_of_ne ps _ pid hne]
        cases hf2 : findProduct ps pid <;>
          simp [hf2, restoredQty, List.filter_cons, hbeq]
    | none =>
      simp only []
      rw [ih]
      by_cases hp : pid = it.product
      · rw [hp, hf]
        rfl
      · have hbeq : (it.product == pid) = false := by
          simpa using fun e => hp e.symm
        cases hf2 : findProduct ps pid <;>
          simp [hf2, restoredQty, List.filter_cons, hbeq]

theorem cancelByCustomer_reject (oid buyerId : Nat) (reason : Option String)
    (now : Int) (orders : List Order) (products : List Product) (order : Order)
    (hfind : findOrder orders oid = some order) (hown : order.buyer = buyerId)
    (hst : order.status ∉ [OrderStatus.pending, OrderStatus.confirmed]) :
    cancelOrderByCustomer oid buyerId reason now orders products =
      ⟨.error (.invalidState ("Order cannot be cancelled in its current status: " ++
          statusToString order.status)), orders, products⟩ := by
  unfold cancelOrderByCustomer
  split
  next hnone =>
    rw [hfind] at hnone
    exact Option.noConfusion hnone
  next order2 hsome =>
    rw [hfind] at hsome
    injection hsome with he
    subst he
    rw [if_neg (by simp [hown]), if_pos hst]

theorem cancelByCustomer_accept (oid buyerId : Nat) (reason : Option String)
    (now : Int) (orders : List Order) (products : List Product) (order : Order)
    (hfind : findOrder orders oid = some order) (hown : order.buyer = buyerId)
    (hst : order.status = .pending ∨ order.status = .confirmed) :
    cancelOrderByCustomer oid buyerId reason now orders products =
      ⟨.ok { order with
          status := .cancelled
          statusHistory := order.statusHistory ++
            [⟨.cancelled, now, cancelNote reason⟩] },
        saveOrder orders { order with
          status := .cancelled
          statusHistory := order.statusHistory ++
            [⟨.cancelled, now, cancelNote reason⟩] },
        restoreStock products order.items⟩ := by
  unfold cancelOrderByCustomer
  split
  next hnone =>
    rw [hfind] at hnone
    exact Option.noConfusion hnone
  next order2 hsome =>
    rw [hfind] at hsome
    injection hsome with he
    subst he
    have hmem : ¬ order.status ∉ [OrderStatus.pending, OrderStatus.confirmed] := by
      rcases hst with h | h <;> simp [h]
    rw [if_neg (by simp [hown]), if_neg hmem]

/-! ### Claim theorems -/

/-- C1: for every cart whose processing succeeds, `createOrder` creates
exactly one Order per distinct seller owning a cart product — the created
orders' sellers are exactly the first-occurrence deduplication of the cart
lines' sellers, with no seller repeated — each order is created in status
`pending`, each order's total is exactly the sum of `price * quantity` over
its own line snapshots, every order holds at least one snapshot, and every
snapshot of an order names a product owned by that order's seller. -/
theorem createOrder_split_correct
    (buyer : Nat) (items : List CartItem) (notes : Option String)
    (pm : List (Nat × String)) (dt : Option String) (da : Option DeliveryAddress)
    (files : List UploadedFile) (now : Int) (nid : Nat) (products : List Product)
    (orders : List Order)
    (h : (createOrder buyer items notes pm dt da files now nid products).response
      = .created orders) :
    orders.map Order.seller = dedupFirst (cartSellers products items) ∧
    (orders.map Order.seller).Nodup ∧
    ∀ o ∈ orders, o.status = .pending ∧ o.total = itemsTotal o.items ∧
      o.items ≠ [] ∧
      ∀ it ∈ o.items, (findProduct products it.product).map Product.seller =
        some o.seller := by
  unfold createOrder at h
  split at h
  · exact CreateResponse.noConfusion h
  · split at h
    next st e hp =>
      exact CreateResponse.noConfusion h
    next st hp =>
      injection h with h2
      subst h2
      have hcat0 : Catalog products products := fun _ => rfl
      have hinv0 : BucketsInv products ([] : List (Nat × Bucket)) := by
        intro y hy
        simp at hy
      obtain ⟨hcat, hinvB, hkeys⟩ := processItems_ok_inv hp hcat0 hinv0
      have hsellers : (mkOrders buyer notes pm dt da now nid st.buckets).map
          Order.seller = dedupFirst (cartSellers products items) := by
        rw [mkOrders_map_seller]
        rw [List.map_congr_left (fun x hx => (hinvB x hx).1)]
        exact hkeys
      refine ⟨hsellers, ?_, ?_⟩
      · rw [hsellers]
        exact dedupFirst_nodup _
      · intro o ho
        obtain ⟨x, hx, oid2, he⟩ := mem_mkOrders buyer notes pm dt da now nid
          st.buckets o ho
        have hbi := hinvB x hx
        subst he
        exact ⟨rfl, hbi.2.1, hbi.2.2.1, fun it hit => by
          rw [hbi.2.2.2 it hit]
          exact congrArg some hbi.1.symm⟩

/-- C1 witness: a two-seller cart creates two pending orders with the
per-seller totals. -/
theorem createOrder_split_correct_witness :
    ([⟨100, 9, 7, [⟨1, "A", 10, 2, "kg", ""⟩], 20, "M1", none, "qr", none,
        .pending, [⟨.pending, 0, "Order placed"⟩], false, false, false,
        "pickup", none, 0⟩,
      ⟨101, 9, 8, [⟨2, "B", 4, 1, "kg", ""⟩], 4, "M2", none, "qr", none,
        .pending, [⟨.pending, 0, "Order placed"⟩], false, false, false,
        "pickup", none, 0⟩] : List Order).map Order.seller =
      dedupFirst (cartSellers
        [⟨1, 7, "A", 10, 5, "kg", "", "M1", true, 2⟩,
         ⟨2, 8, "B", 4, 3, "kg", "", "M2", true, 10⟩]
        [⟨1, 2⟩, ⟨2, 1⟩]) ∧
    (([⟨100, 9, 7, [⟨1, "A", 10, 2, "kg", ""⟩], 20, "M1", none, "qr", none,
        .pending, [⟨.pending, 0, "Order placed"⟩], false, false, false,
        "pickup", none, 0⟩,
      ⟨101, 9, 8, [⟨2, "B", 4, 1, "kg", ""⟩], 4, "M2", none, "qr", none,
        .pending, [⟨.pending, 0, "Order placed"⟩], false, false, false,
        "pickup", none, 0⟩] : List Order).map Order.seller).Nodup ∧
    ∀ o ∈ ([⟨100, 9, 7, [⟨1, "A", 10, 2, "kg", ""⟩], 20, "M1", none, "qr", none,
        .pending, [⟨.pending, 0, "Order placed"⟩], false, false, false,
        "pickup", none, 0⟩,
      ⟨101, 9, 8, [⟨2, "B", 4, 1, "kg", ""⟩], 4, "M2", none, "qr", none,
        .pending, [⟨.pending, 0, "Order placed"⟩], false, false, false,
        "pickup", none, 0⟩] : List Order),
      o.status = .pending ∧ o.total = itemsTotal o.items ∧ o.items ≠ [] ∧
      ∀ it ∈ o.items,
        (findProduct
          [⟨1, 7, "A", 10, 5, "kg", "", "M1", true, 2⟩,
           ⟨2, 8, "B", 4, 3, "kg", "", "M2", true, 10⟩] it.product).map
          Product.seller = some o.seller :=
  createOrder_split_correct 9 [⟨1, 2⟩, ⟨2, 1⟩] none [] none none [] 0 100
    [⟨1, 7, "A", 10, 5, "kg", "", "M1", true, 2⟩,
     ⟨2, 8, "B", 4, 3, "kg", "", "M2", true, 10⟩]
    _ (by rfl)

/-- C2: if `createOrder` aborts on a cart line with `NotFound` or
`InsufficientStock` (those are the only two mid-cart abort errors), the
whole request fails with that error and no Order is created, yet the stock
decrements already applied to the lines before the failing one remain in
place and nothing else is decremented: afterwards every product's quantity
equals its initial quantity minus exactly what the earlier lines requested
of it. -/
theorem createOrder_midcart_abort_no_rollback
    (buyer : Nat) (pre post : List CartItem) (bad : CartItem)
    (notes : Option String) (pm : List (Nat × String)) (dt : Option String)
    (da : Option DeliveryAddress) (files : List UploadedFile) (now : Int)
    (nid : Nat) (products : List Product) (st : ProcState) (e : ApiError)
    (h1 : processItems files ⟨products, [], []⟩ pre = .ok st)
    (h2 : processLine files st bad = .fail st e) :
    (createOrder buyer (pre ++ bad :: post) notes pm dt da files now nid
        products).response = .error e ∧
    (e = .notFound bad.productId ∨ ∃ nm, e = .insufficientStock nm) ∧
    (createOrder buyer (pre ++ bad :: post) notes pm dt da files now nid
        products).createdOrders = [] ∧
    ∀ pid, (findProduct (createOrder buyer (pre ++ bad :: post) notes pm dt da
        files now nid products).products pid).map Product.quantity =
      (findProduct products pid).map
        (fun p => p.quantity - requestedQty pre pid) := by
  have hrun : processItems files ⟨products, [], []⟩ (pre ++ bad :: post) =
      .fail st e := by
    rw [processItems_append pre (bad :: post) h1]
    simp only [processItems]
    rw [h2]
  have hne : ((pre ++ bad :: post).isEmpty) = false := by simp
  have hco : createOrder buyer (pre ++ bad :: post) notes pm dt da files now nid
      products =
      { response := .error e, products := st.products, createdOrders := [],
        lowStockEvents := st.lowStockEvents, deletedFiles := [] } := by
    unfold createOrder
    rw [hne, hrun]
    rfl
  rw [hco]
  refine ⟨rfl, (processLine_fail h2).2, rfl, ?_⟩
  intro pid
  exact processItems_ok_quantity h1 pid

/-- C2 witness: a two-line cart whose second line has insufficient stock
fails with `InsufficientStock` naming the second product, creates no
order, and leaves the first product decremented. -/
theorem createOrder_midcart_abort_no_rollback_witness :
    (createOrder 9 ([⟨1, 2⟩] ++ ⟨2, 3⟩ :: []) none [] none none [] 0 100
        [⟨1, 7, "A", 10, 5, "kg", "", "M1", true, 2⟩,
         ⟨2, 8, "B", 4, 1, "kg", "", "M2", true, 10⟩]).response =
      .error (.insufficientStock "B") ∧
    ((ApiError.insufficientStock "B") = .notFound (⟨2, 3⟩ : CartItem).productId ∨
      ∃ nm, (ApiError.insufficientStock "B") = .insufficientStock nm) ∧
    (createOrder 9 ([⟨1, 2⟩] ++ ⟨2, 3⟩ :: []) none [] none none [] 0 100
        [⟨1, 7, "A", 10, 5, "kg", "", "M1", true, 2⟩,
         ⟨2, 8, "B", 4, 1, "kg", "", "M2", true, 10⟩]).createdOrders = [] ∧
    ∀ pid, (findProduct (createOrder 9 ([⟨1, 2⟩] ++ ⟨2, 3⟩ :: []) none [] none
        none [] 0 100
        [⟨1, 7, "A", 10, 5, "kg", "", "M1", true, 2⟩,
         ⟨2, 8, "B", 4, 1, "kg", "", "M2", true, 10⟩]).products pid).map
        Product.quantity =
      (findProduct
        [⟨1, 7, "A", 10, 5, "kg", "", "M1", true, 2⟩,
         ⟨2, 8, "B", 4, 1, "kg", "", "M2", true, 10⟩] pid).map
        (fun p => p.quantity - requestedQty [⟨1, 2⟩] pid) :=
  createOrder_midcart_abort_no_rollback 9 [⟨1, 2⟩] [] ⟨2, 3⟩ none [] none none
    [] 0 100
    [⟨1, 7, "A", 10, 5, "kg", "", "M1", true, 2⟩,
     ⟨2, 8, "B", 4, 1, "kg", "", "M2", true, 10⟩]
    ⟨[⟨1, 7, "A", 10, 3, "kg", "", "M1", true, 2⟩,
      ⟨2, 8, "B", 4, 1, "kg", "", "M2", true, 10⟩],
     [(7, ⟨7, "M1", [⟨1, "A", 10, 2, "kg", ""⟩], 20, none⟩)], []⟩
    (.insufficientStock "B") (by rfl) (by rfl)

/-- C5 (documented cleanup requirement violated by the source): on the
mid-cart `NotFound` abort path the staged upload is not deleted
(`deletedFiles = []`), while the empty-cart abort path does delete it —
the early returns of the product loop skip the `fs.unlinkSync` cleanup
that the empty-cart check and the catch-all handler perform. -/
theorem createOrder_abort_leaves_staged_file :
    (createOrder 9 [⟨1, 1⟩, ⟨2, 1⟩] none [] none none
        [⟨"proof_7", "r.png", "/tmp/r.png"⟩] 0 100
        [⟨1, 7, "A", 10, 5, "kg", "", "M1", true, 2⟩]).response =
      .error (.notFound 2) ∧
    (createOrder 9 [⟨1, 1⟩, ⟨2, 1⟩] none [] none none
        [⟨"proof_7", "r.png", "/tmp/r.png"⟩] 0 100
        [⟨1, 7, "A", 10, 5, "kg", "", "M1", true, 2⟩]).deletedFiles = [] ∧
    (createOrder 9 [] none [] none none
        [⟨"proof_7", "r.png", "/tmp/r.png"⟩] 0 100
        [⟨1, 7, "A", 10, 5, "kg", "", "M1", true, 2⟩]).deletedFiles =
      ["/tmp/r.png"] :=
  ⟨by rfl, by rfl, by rfl⟩

/-- C3: given the order exists and belongs to the caller,
`cancelOrderByCustomer` succeeds exactly when the current status is
`pending` or `confirmed` — any other status is rejected with the current
status echoed in the error message and nothing changed. On success each
line snapshot's quantity is added back onto the corresponding live product
exactly once, the status becomes `cancelled`, one history entry carrying
the optional customer reason is appended, and a second cancellation of the
same order is rejected and changes neither the orders nor the products. -/
theorem cancelByCustomer_spec
    (oid buyerId : Nat) (reason reason2 : Option String) (now now2 : Int)
    (orders : List Order) (products : List Product) (order : Order)
    (hfind : findOrder orders oid = some order)
    (hown : order.buyer = buyerId) :
    (¬(order.status = .pending ∨ order.status = .confirmed) →
      (cancelOrderByCustomer oid buyerId reason now orders products).result =
        .error (.invalidState
          ("Order cannot be cancelled in its current status: " ++
            statusToString order.status)) ∧
      (cancelOrderByCustomer oid buyerId reason now orders products).orders =
        orders ∧
      (cancelOrderByCustomer oid buyerId reason now orders products).products =
        products) ∧
    ((order.status = .pending ∨ order.status = .confirmed) →
      (cancelOrderByCustomer oid buyerId reason now orders products).result =
        .ok { order with
          status := .cancelled
          statusHistory := order.statusHistory ++
            [⟨.cancelled, now, cancelNote reason⟩] } ∧
      (cancelOrderByCustomer oid buyerId reason now orders products).orders =
        saveOrder orders { order with
          status := .cancelled
          statusHistory := order.statusHistory ++
            [⟨.cancelled, now, cancelNote reason⟩] } ∧
      (∀ pid,
        (findProduct (cancelOrderByCustomer oid buyerId reason now orders
            products).products pid).map Product.quantity =
          (findProduct products pid).map
            (fun p => p.quantity + restoredQty order.items pid)) ∧
      ((cancelOrderByCustomer oid buyerId reason2 now2
          (cancelOrderByCustomer oid buyerId reason now orders products).orders
          (cancelOrderByCustomer oid buyerId reason now orders
            products).products).result =
        .error (.invalidState
          "Order cannot be cancelled in its current status: cancelled") ∧
        (cancelOrderByCustomer oid buyerId reason2 now2
          (cancelOrderByCustomer oid buyerId reason now orders products).orders
          (cancelOrderByCustomer oid buyerId reason now orders
            products).products).orders =
          (cancelOrderByCustomer oid buyerId reason now orders products).orders ∧
        (cancelOrderByCustomer oid buyerId reason2 now2
          (cancelOrderByCustomer oid buyerId reason now orders products).orders
          (cancelOrderByCustomer oid buyerId reason now orders
            products).products).products =
          (cancelOrderByCustomer oid buyerId reason now orders
            products).products)) := by
  constructor
  · intro hst
    have hmem : order.status ∉ [OrderStatus.pending, OrderStatus.confirmed] := by
      intro hmem2
      apply hst
      simpa using hmem2
    rw [cancelByCustomer_reject oid buyerId reason now orders products order
      hfind hown hmem]
    exact ⟨rfl, rfl, rfl⟩
  · intro hst
    have hacc := cancelByCustomer_accept oid buyerId reason now orders products
      order hfind hown hst
    rw [hacc]
    refine ⟨rfl, rfl, ?_, ?_⟩
    · intro pid
      exact restoreStock_quantity order.items products pid
    · have hfind2 : findOrder (saveOrder orders { order with
          status := .cancelled
          statusHistory := order.statusHistory ++
            [⟨.cancelled, now, cancelNote reason⟩] }) oid =
          some { order with
            status := .cancelled
            statusHistory := order.statusHistory ++
              [⟨.cancelled, now, cancelNote reason⟩] } :=
        findOrder_save_self orders oid order _ hfind rfl
    -- second call hits the status gate with status `cancelled`
      rw [cancelByCustomer_reject oid buyerId reason2 now2 _ _ _ hfind2 hown
        (by simp)]
      exact ⟨rfl, rfl, rfl⟩

/-- C3 witness: cancelling a concrete pending order restores the product's
stock from 3 to 5, and a second cancellation is rejected with the status
echoed. -/
theorem cancelByCustomer_spec_witness :
    (cancelOrderByCustomer 1 5 (some "changed my mind") 9
        [⟨1, 5, 7, [⟨1, "A", 10, 2, "kg", ""⟩], 20, "M1", none, "qr", none,
          .pending, [⟨.pending, 0, "Order placed"⟩], false, false, false,
          "pickup", none, 0⟩]
        [⟨1, 7, "A", 10, 3, "kg", "", "M1", true, 2⟩]).result =
      .ok { (⟨1, 5, 7, [⟨1, "A", 10, 2, "kg", ""⟩], 20, "M1", none, "qr", none,
          .pending, [⟨.pending, 0, "Order placed"⟩], false, false, false,
          "pickup", none, 0⟩ : Order) with
        status := .cancelled
        statusHistory := [⟨.pending, 0, "Order placed"⟩] ++
          [⟨.cancelled, 9, cancelNote (some "changed my mind")⟩] } ∧
    (findProduct (cancelOrderByCustomer 1 5 (some "changed my mind") 9
        [⟨1, 5, 7, [⟨1, "A", 10, 2, "kg", ""⟩], 20, "M1", none, "qr", none,
          .pending, [⟨.pending, 0, "Order placed"⟩], false, false, false,
          "pickup", none, 0⟩]
        [⟨1, 7, "A", 10, 3, "kg", "", "M1", true, 2⟩]).products 1).map
      Product.quantity = some 5 ∧
    (cancelOrderByCustomer 1 5 none 10
        (cancelOrderByCustomer 1 5 (some "changed my mind") 9
          [⟨1, 5, 7, [⟨1, "A", 10, 2, "kg", ""⟩], 20, "M1", none, "qr", none,
            .pending, [⟨.pending, 0, "Order placed"⟩], false, false, false,
            "pickup", none, 0⟩]
          [⟨1, 7, "A", 10, 3, "kg", "", "M1", true, 2⟩]).orders
        (cancelOrderByCustomer 1 5 (some "changed my mind") 9
          [⟨1, 5, 7, [⟨1, "A", 10, 2, "kg", ""⟩], 20, "M1", none, "qr", none,
            .pending, [⟨.pending, 0, "Order placed"⟩], false, false, false,
            "pickup", none, 0⟩]
          [⟨1, 7, "A", 10, 3, "kg", "", "M1", true, 2⟩]).products).result =
      .error (.invalidState
        "Order cannot be cancelled in its current status: cancelled") := by
  have h := (cancelByCustomer_spec 1 5 (some "changed my mind") none 9 10
    [⟨1, 5, 7, [⟨1, "A", 10, 2, "kg", ""⟩], 20, "M1", none, "qr", none,
      .pending, [⟨.pending, 0, "Order placed"⟩], false, false, false,
      "pickup", none, 0⟩]
    [⟨1, 7, "A", 10, 3, "kg", "", "M1", true, 2⟩]
    ⟨1, 5, 7, [⟨1, "A", 10, 2, "kg", ""⟩], 20, "M1", none, "qr", none,
      .pending, [⟨.pending, 0, "Order placed"⟩], false, false, false,
      "pickup", none, 0⟩ (by rfl) (by rfl)).2 (Or.inl rfl)
  refine ⟨h.1, ?_, h.2.2.2.1⟩
  rw [h.2.2.1 1]
  rfl

theorem bulkArchiveOrders_cases (orderIds : List Nat) (userId : Nat)
    (archive : Bool) (orders : List Order) (products : List Product) :
    (∃ e, bulkArchiveOrders orderIds userId archive orders products =
      ⟨.error e, orders, products⟩) ∨
    bulkArchiveOrders orderIds userId archive orders products =
      ⟨.ok orderIds.length,
        orders.map (fun o =>
          if orderIds.contains o.id && o.seller == userId then
            { o with isArchived := archive }
          else o),
        products⟩ := by
  unfold bulkArchiveOrders
  split
  · exact Or.inl ⟨_, rfl⟩
  · simp only []
    split
    · exact Or.inl ⟨_, rfl⟩
    · split
      · exact Or.inl ⟨_, rfl⟩
      · exact Or.inr rfl

/-- C4 counterexample: a bulk unarchive (`archive = false`) of a `pending`
order owned by the caller succeeds and clears `isArchived` — the
terminal-status validation of `bulkArchiveOrders` is guarded by
`archive &&`, so setting the flag to `false` in bulk is not restricted to
completed/cancelled orders as the claim states and is not rejected with
`InvalidState`. -/
theorem bulkArchive_unarchive_nonterminal :
    (⟨1, 5, 7, [], 0, "M1", none, "qr", none, .pending, [], false, true,
      false, "pickup", none, 0⟩ : Order).status = .pending ∧
    ¬ terminal (⟨1, 5, 7, [], 0, "M1", none, "qr", none, .pending, [], false,
      true, false, "pickup", none, 0⟩ : Order).status ∧
    (bulkArchiveOrders [1] 7 false
      [⟨1, 5, 7, [], 0, "M1", none, "qr", none, .pending, [], false, true,
        false, "pickup", none, 0⟩] []).result = .ok 1 ∧
    (bulkArchiveOrders [1] 7 false
      [⟨1, 5, 7, [], 0, "M1", none, "qr", none, .pending, [], false, true,
        false, "pickup", none, 0⟩] []).orders =
      [⟨1, 5, 7, [], 0, "M1", none, "qr", none, .pending, [], false, false,
        false, "pickup", none, 0⟩] := by
  refine ⟨rfl, ?_, rfl, rfl⟩
  intro h
  rcases h with h | h <;> exact OrderStatus.noConfusion h

theorem bulkArchive_found_length_lt (orderIds : List Nat) (userId : Nat)
    (orders : List Order) (i : Nat)
    (hnodup : (orders.map Order.id).Nodup)
    (hi : i ∈ orderIds)
    (hmiss : ∀ o ∈ orders, o.id = i → o.seller ≠ userId) :
    (orders.filter (fun o => orderIds.contains o.id && o.seller == userId)).length <
      orderIds.length := by
  have hsub : ((orders.filter
      (fun o => orderIds.contains o.id && o.seller == userId)).map
        Order.id).toFinset ⊆ orderIds.toFinset.erase i := by
    intro a ha
    rw [List.mem_toFinset] at ha
    rcases List.mem_map.1 ha with ⟨o, ho, hoa⟩
    have ho2 := List.mem_filter.1 ho
    have hids : o.id ∈ orderIds := by
      have hb := ho2.2
      simp [List.elem_iff] at hb
      exact hb.1
    have hsell : o.seller = userId := by
      have hb := ho2.2
      simp [List.elem_iff] at hb
      exact hb.2
    rw [Finset.mem_erase]
    constructor
    · intro hai
      exact hmiss o ho2.1 (by rw [hoa]; exact hai) hsell
    · rw [List.mem_toFinset, ← hoa]
      exact hids
  have hsubl : List.Sublist (orders.filter
      (fun o => orderIds.contains o.id && o.seller == userId)) orders :=
    List.filter_sublist _
  have hnd : ((orders.filter
      (fun o => orderIds.contains o.id && o.seller == userId)).map
        Order.id).Nodup :=
    hnodup.sublist (hsubl.map Order.id)
  have h1 : (orders.filter
      (fun o => orderIds.contains o.id && o.seller == userId)).length =
      ((orders.filter
        (fun o => orderIds.contains o.id && o.seller == userId)).map
          Order.id).length := (List.length_map _ _).symm
  have h2 := List.toFinset_card_of_nodup hnd
  have h3 := Finset.card_le_card hsub
  have h4 : (orderIds.toFinset.erase i).card = orderIds.toFinset.card - 1 :=
    Finset.card_erase_of_mem (List.mem_toFinset.2 hi)
  have h5 : 0 < orderIds.toFinset.card :=
    Finset.card_pos.2 ⟨i, List.mem_toFinset.2 hi⟩
  have h6 : orderIds.toFinset.card ≤ orderIds.length := orderIds.toFinset_card_le
  omega

/-- C4 (amended): the single-order `archiveOrder` gates both directions of
the flag on a terminal status, rejecting non-terminal orders with
`InvalidState`; `bulkArchiveOrders` validates up front that every listed
order exists and belongs to the requesting seller — with unique order ids,
a listed id that resolves to no order of the requesting seller makes the
whole call error, and conversely a successful call entails every listed id
named an owned order — applies the terminal-status validation only when
`archive = true` (rejecting the whole batch if any owned listed target is
then non-terminal), leaves the collection untouched on every failure
(all-or-nothing), and on a validated batch flips the flag on exactly the
listed owned orders. -/
theorem archive_gating_spec
    (oid userId : Nat) (archive : Bool) (orderIds : List Nat)
    (orders : List Order) (products : List Product) (order : Order) :
    (findOrder orders oid = some order → order.seller = userId →
      ((terminal order.status →
        (archiveOrder oid userId archive orders products).result =
          .ok { order with isArchived := archive } ∧
        (archiveOrder oid userId archive orders products).orders =
          saveOrder orders { order with isArchived := archive }) ∧
      (¬ terminal order.status →
        (archiveOrder oid userId archive orders products).result =
          .error (.invalidState
            "Only completed or cancelled orders can be archived") ∧
        (archiveOrder oid userId archive orders products).orders = orders))) ∧
    (order ∈ orders → order.id ∈ orderIds → order.seller = userId →
      archive = true → ¬ terminal order.status →
      ∃ e, (bulkArchiveOrders orderIds userId archive orders products).result =
        .error e) ∧
    ((orders.map Order.id).Nodup → ∀ i ∈ orderIds,
      (∀ o ∈ orders, o.id = i → o.seller ≠ userId) →
      ∃ e, (bulkArchiveOrders orderIds userId archive orders products).result =
        .error e) ∧
    ((orders.map Order.id).Nodup → ∀ n,
      (bulkArchiveOrders orderIds userId archive orders products).result =
        .ok n →
      ∀ i ∈ orderIds, ∃ o ∈ orders, o.id = i ∧ o.seller = userId) ∧
    (∀ e, (bulkArchiveOrders orderIds userId archive orders products).result =
        .error e →
      (bulkArchiveOrders orderIds userId archive orders products).orders =
        orders) ∧
    (orderIds ≠ [] →
      (orders.filter (fun o => orderIds.contains o.id && o.seller == userId)).length =
        orderIds.length →
      (∀ o ∈ orders, o.id ∈ orderIds → o.seller = userId → archive = true →
        terminal o.status) →
      (bulkArchiveOrders orderIds userId archive orders products).result =
        .ok orderIds.length ∧
      (bulkArchiveOrders orderIds userId archive orders products).orders =
        orders.map (fun o =>
          if orderIds.contains o.id && o.seller == userId then
            { o with isArchived := archive }
          else o)) := by
  have hreject : (orders.map Order.id).Nodup → ∀ i ∈ orderIds,
      (∀ o ∈ orders, o.id = i → o.seller ≠ userId) →
      ∃ e, (bulkArchiveOrders orderIds userId archive orders products).result =
        .error e := by
    intro hnodup i hiMem hmiss
    unfold bulkArchiveOrders
    split
    · exact ⟨_, rfl⟩
    · simp only []
      split
      · exact ⟨_, rfl⟩
      next hcond =>
        exfalso
        exact absurd (not_ne_iff.mp hcond)
          (Nat.ne_of_lt (bulkArchive_found_length_lt orderIds userId orders i
            hnodup hiMem hmiss))
  refine ⟨?_, ?_, hreject, ?_, ?_, ?_⟩
  · intro hfind hown
    constructor
    · intro hterm
      unfold archiveOrder
      split
      next hnone =>
        rw [hfind] at hnone
        exact Option.noConfusion hnone
      next order2 hsome =>
        rw [hfind] at hsome
        injection hsome with he
        subst he
        have hmem : ¬ order.status ∉ [OrderStatus.completed, OrderStatus.cancelled] := by
          rcases hterm with h | h <;> simp [h]
        rw [if_neg (by simp [hown]), if_neg hmem]
        exact ⟨rfl, rfl⟩
    · intro hterm
      unfold archiveOrder
      split
      next hnone =>
        rw [hfind] at hnone
        exact Option.noConfusion hnone
      next order2 hsome =>
        rw [hfind] at hsome
        injection hsome with he
        subst he
        have hmem : order.status ∉ [OrderStatus.completed, OrderStatus.cancelled] := by
          intro hmem2
          apply hterm
          simpa [terminal] using hmem2
        rw [if_neg (by simp [hown]), if_pos hmem]
        exact ⟨rfl, rfl⟩
  · intro hmem hid hown harch hterm
    unfold bulkArchiveOrders
    split
    · exact ⟨_, rfl⟩
    · simp only []
      split
      · exact ⟨_, rfl⟩
      · split
        next hpos => exact ⟨_, rfl⟩
        next hpos =>
          exfalso
          apply hpos
          have hfound : order ∈ orders.filter
              (fun o => orderIds.contains o.id && o.seller == userId) := by
            refine List.mem_filter.2 ⟨hmem, ?_⟩
            simp [List.elem_iff, hid, hown]
          have hna : order ∈ (orders.filter
              (fun o => orderIds.contains o.id && o.seller == userId)).filter
              (fun o => archive &&
                !([OrderStatus.completed, OrderStatus.cancelled].contains o.status)) := by
            refine List.mem_filter.2 ⟨hfound, ?_⟩
            have h1 : ¬ order.status = OrderStatus.completed :=
              fun h => hterm (Or.inl h)
            have h2 : ¬ order.status = OrderStatus.cancelled :=
              fun h => hterm (Or.inr h)
            simp [harch, h1, h2]
          exact List.length_pos.2 (List.ne_nil_of_mem hna)
  · intro hnodup n hok i hiMem
    by_contra hmiss
    push_neg at hmiss
    obtain ⟨e, he⟩ := hreject hnodup i hiMem hmiss
    rw [hok] at he
    exact OpOutcome.noConfusion he
  · intro e hres
    rcases bulkArchiveOrders_cases orderIds userId archive orders products with
      ⟨e2, heq⟩ | heq
    · rw [heq]
    · rw [heq] at hres
      exact OpOutcome.noConfusion hres
  · intro hne hlen hterm
    unfold bulkArchiveOrders
    rw [if_neg (by simpa [List.isEmpty_iff] using hne),
      if_neg (fun hc => hc hlen)]
    have hna : ((orders.filter
        (fun o => orderIds.contains o.id && o.seller == userId)).filter
        (fun o => archive &&
          !([OrderStatus.completed, OrderStatus.cancelled].contains o.status))) = [] := by
      simp only [List.filter_eq_nil_iff]
      intro o ho
      have ho2 := List.mem_filter.1 ho
      have hid : o.id ∈ orderIds := by
        have := ho2.2
        simp [List.elem_iff] at this
        exact this.1
      have hown : o.seller = userId := by
        have := ho2.2
        simp [List.elem_iff] at this
        exact this.2
      intro hcontra
      simp only [Bool.and_eq_true, Bool.not_eq_true'] at hcontra
      have hterm2 := hterm o ho2.1 hid hown hcontra.1
      rcases hterm2 with h | h <;> simp [h] at hcontra
    rw [if_neg (by rw [hna]; simp)]
    exact ⟨rfl, rfl⟩

/-- C4 witness: archiving a concrete `completed` order succeeds both
through the single-order route and through a validated bulk batch, while a
batch also listing an id owned by no order of the seller errors. -/
theorem archive_gating_spec_witness :
    (archiveOrder 1 7 true
        [⟨1, 5, 7, [], 0, "M1", none, "qr", none, .completed, [], false,
          false, false, "pickup", none, 0⟩] []).result =
      .ok ⟨1, 5, 7, [], 0, "M1", none, "qr", none, .completed, [], false,
        true, false, "pickup", none, 0⟩ ∧
    (bulkArchiveOrders [1] 7 true
        [⟨1, 5, 7, [], 0, "M1", none, "qr", none, .completed, [], false,
          false, false, "pickup", none, 0⟩] []).result = .ok 1 ∧
    (bulkArchiveOrders [1] 7 true
        [⟨1, 5, 7, [], 0, "M1", none, "qr", none, .completed, [], false,
          false, false, "pickup", none, 0⟩] []).orders =
      [⟨1, 5, 7, [], 0, "M1", none, "qr", none, .completed, [], false,
        true, false, "pickup", none, 0⟩] ∧
    (∃ e, (bulkArchiveOrders [1, 2] 7 true
        [⟨1, 5, 7, [], 0, "M1", none, "qr", none, .completed, [], false,
          false, false, "pickup", none, 0⟩] []).result = .error e) := by
  have h := archive_gating_spec 1 7 true [1]
    [⟨1, 5, 7, [], 0, "M1", none, "qr", none, .completed, [], false,
      false, false, "pickup", none, 0⟩] []
    ⟨1, 5, 7, [], 0, "M1", none, "qr", none, .completed, [], false,
      false, false, "pickup", none, 0⟩
  have h1 := (h.1 (by rfl) rfl).1 (Or.inl rfl)
  have h6 := h.2.2.2.2.2 (by simp) (by rfl)
    (by
      intro o ho hid hown harch
      simp only [List.mem_singleton] at ho
      subst ho
      exact Or.inl rfl)
  have h2 := archive_gating_spec 1 7 true [1, 2]
    [⟨1, 5, 7, [], 0, "M1", none, "qr", none, .completed, [], false,
      false, false, "pickup", none, 0⟩] []
    ⟨1, 5, 7, [], 0, "M1", none, "qr", none, .completed, [], false,
      false, false, "pickup", none, 0⟩
  have hrej := h2.2.2.1 (by decide) 2 (by decide)
    (by
      intro o ho hid
      simp only [List.mem_singleton] at ho
      subst ho
      exact absurd hid (by decide))
  refine ⟨h1.1, h6.1, ?_, hrej⟩
  rw [h6.2]
  rfl

theorem foldl_add_total (l : List Order) :
    ∀ a : Nat, l.foldl (fun sum o => sum + o.total) a = a + (l.map Order.total).sum := by
  induction l with
  | nil =>
    intro a
    simp
  | cons o os ih =>
    intro a
    simp [ih, Nat.add_assoc]

/-- C6 counterexample: with `now` at noon and `startOfToday` at the
preceding midnight, a completed order created one hour after
`startOfToday - 7` days (and hence before `now - 7` days) is counted by
the code's week filter but lies outside the claim's `[now - 7d, now]`
window, so the returned revenue (100) differs from the claimed sum (0). -/
theorem weekRevenue_window_counterexample :
    ((691200000 : Int) ≤ 734400000 ∧ (734400000 : Int) < 691200000 + dayMs) ∧
    weekTotalRevenue 3 691200000
      [⟨1, 5, 3, [], 100, "M1", none, "qr", none, .completed, [], false,
        false, false, "pickup", none, 90000000⟩] = 100 ∧
    claimedWeekRevenue 3 734400000
      [⟨1, 5, 3, [], 100, "M1", none, "qr", none, .completed, [], false,
        false, false, "pickup", none, 90000000⟩] = 0 ∧
    weekTotalRevenue 3 691200000
      [⟨1, 5, 3, [], 100, "M1", none, "qr", none, .completed, [], false,
        false, false, "pickup", none, 90000000⟩] ≠
      claimedWeekRevenue 3 734400000
      [⟨1, 5, 3, [], 100, "M1", none, "qr", none, .completed, [], false,
        false, false, "pickup", none, 90000000⟩] := by
  exact ⟨by decide, by rfl, by rfl, by decide⟩

/-- C6 (amended): for `period = "week"` the returned `totalRevenue` equals
the manually computed sum of `total` over the seller's completed orders
with `createdAt` at or after local midnight of today minus seven days —
the filter has no upper bound, and its lower bound is midnight-based, not
`now - 7d`. -/
theorem weekTotalRevenue_eq_manual_sum (sellerId : Nat) (startOfToday : Int)
    (orders : List Order) :
    weekTotalRevenue sellerId startOfToday orders =
      completedRevenueSince sellerId (weekAgo startOfToday) orders := by
  unfold weekTotalRevenue completedRevenueSince weekOrders
  rw [List.filter_filter, foldl_add_total, Nat.zero_add]
  have hfe : (orders.filter (fun a => a.status == OrderStatus.completed &&
      (a.seller == sellerId && decide (weekAgo startOfToday ≤ a.createdAt)))) =
      orders.filter (fun o => o.seller == sellerId &&
        o.status == OrderStatus.completed &&
        decide (weekAgo startOfToday ≤ o.createdAt)) := by
    apply List.filter_congr
    intro o _
    cases o.seller == sellerId <;> cases o.status == OrderStatus.completed <;>
      cases hdec : (decide (weekAgo startOfToday ≤ o.createdAt)) <;> simp [hdec]
  rw [hfe]

/-- C7: for a non-empty id list, `bulkHideOrdersForBuyer` never errors; it
sets `isHiddenByBuyer` on exactly the listed orders that belong to the
requesting buyer and are in a terminal status (every non-matching order is
silently left unchanged), and it reports the number of orders actually
modified — the matching orders that were not already hidden. -/
theorem bulkHide_partial_success (orderIds : List Nat) (buyerId : Nat)
    (orders : List Order) (products : List Product) (hne : orderIds ≠ []) :
    (∃ n, (bulkHideOrdersForBuyer orderIds buyerId orders products).result =
      .ok n) ∧
    (bulkHideOrdersForBuyer orderIds buyerId orders products).result =
      .ok ((orders.filter (fun o => buyerHideEligible orderIds buyerId o &&
        !o.isHiddenByBuyer)).length) ∧
    (bulkHideOrdersForBuyer orderIds buyerId orders products).orders =
      orders.map (fun o =>
        if buyerHideEligible orderIds buyerId o then
          { o with isHiddenByBuyer := true }
        else o) ∧
    (bulkHideOrdersForBuyer orderIds buyerId orders products).products =
      products := by
  have hpred : ∀ o : Order,
      (orderIds.contains o.id && o.buyer == buyerId &&
        [OrderStatus.completed, OrderStatus.cancelled].contains o.status) =
      buyerHideEligible orderIds buyerId o := by
    intro o
    rw [Bool.eq_iff_iff]
    simp [buyerHideEligible, terminal, List.elem_iff, and_assoc]
  have hfl : orders.filter (fun o =>
      (orderIds.contains o.id && o.buyer == buyerId &&
        [OrderStatus.completed, OrderStatus.cancelled].contains o.status) &&
        !o.isHiddenByBuyer) =
      orders.filter (fun o => buyerHideEligible orderIds buyerId o &&
        !o.isHiddenByBuyer) := by
    apply List.filter_congr
    intro o _
    rw [hpred o]
  have hmap : orders.map (fun o =>
      if (orderIds.contains o.id && o.buyer == buyerId &&
        [OrderStatus.completed, OrderStatus.cancelled].contains o.status) then
        { o with isHiddenByBuyer := true }
      else o) =
      orders.map (fun o =>
        if buyerHideEligible orderIds buyerId o then
          { o with isHiddenByBuyer := true }
        else o) := by
    apply List.map_congr_left
    intro o _
    simp only [hpred o]
  have hbulk : bulkHideOrdersForBuyer orderIds buyerId orders products =
      ⟨.ok ((orders.filter (fun o => buyerHideEligible orderIds buyerId o &&
          !o.isHiddenByBuyer)).length),
        orders.map (fun o =>
          if buyerHideEligible orderIds buyerId o then
            { o with isHiddenByBuyer := true }
          else o),
        products⟩ := by
    unfold bulkHideOrdersForBuyer
    rw [if_neg (by simpa [List.isEmpty_iff] using hne)]
    simp only []
    rw [hfl, hmap]
  rw [hbulk]
  exact ⟨⟨_, rfl⟩, rfl, rfl, rfl⟩

/-- C7 witness: three listed orders of which one belongs to another buyer —
the call succeeds with a modified count of 2, hiding exactly the two owned
terminal orders. -/
theorem bulkHide_partial_success_witness :
    (bulkHideOrdersForBuyer [1, 2, 3] 5
        [⟨1, 5, 7, [], 10, "M1", none, "qr", none, .completed, [], false,
          false, false, "pickup", none, 0⟩,
         ⟨2, 5, 7, [], 20, "M1", none, "qr", none, .cancelled, [], false,
          false, false, "pickup", none, 0⟩,
         ⟨3, 6, 7, [], 30, "M1", none, "qr", none, .completed, [], false,
          false, false, "pickup", none, 0⟩] []).result = .ok 2 ∧
    (bulkHideOrdersForBuyer [1, 2, 3] 5
        [⟨1, 5, 7, [], 10, "M1", none, "qr", none, .completed, [], false,
          false, false, "pickup", none, 0⟩,
         ⟨2, 5, 7, [], 20, "M1", none, "qr", none, .cancelled, [], false,
          false, false, "pickup", none, 0⟩,
         ⟨3, 6, 7, [], 30, "M1", none, "qr", none, .completed, [], false,
          false, false, "pickup", none, 0⟩] []).orders =
      [⟨1, 5, 7, [], 10, "M1", none, "qr", none, .completed, [], false,
          false, true, "pickup", none, 0⟩,
       ⟨2, 5, 7, [], 20, "M1", none, "qr", none, .cancelled, [], false,
          false, true, "pickup", none, 0⟩,
       ⟨3, 6, 7, [], 30, "M1", none, "qr", none, .completed, [], false,
          false, false, "pickup", none, 0⟩] := by
  have h := bulkHide_partial_success [1, 2, 3] 5
    [⟨1, 5, 7, [], 10, "M1", none, "qr", none, .completed, [], false,
      false, false, "pickup", none, 0⟩,
     ⟨2, 5, 7, [], 20, "M1", none, "qr", none, .cancelled, [], false,
      false, false, "pickup", none, 0⟩,
     ⟨3, 6, 7, [], 30, "M1", none, "qr", none, .completed, [], false,
      false, false, "pickup", none, 0⟩] [] (by simp)
  refine ⟨?_, ?_⟩
  · rw [h.2.1]
    rfl
  · rw [h.2.2.1]
    rfl

/-- C8: for any existing order owned by the calling seller — with no
hypothesis on the order's current status, payment-verification flag, or
anything else — `verifyPayment` succeeds, sets `isPaymentVerified`, forces
the status to `preparing`, and appends exactly one corresponding history
entry; nothing guards against re-verification. -/
theorem verifyPayment_spec (oid userId : Nat) (now : Int) (orders : List Order)
    (products : List Product) (order : Order)
    (hfind : findOrder orders oid = some order)
    (hown : order.seller = userId) :
    (verifyPayment oid userId now orders products).result =
      .ok { order with
        isPaymentVerified := true
        status := .preparing
        statusHistory := order.statusHistory ++
          [⟨.preparing, now, "Payment verified and order confirmed by seller"⟩] } ∧
    (verifyPayment oid userId now orders products).orders =
      saveOrder orders { order with
        isPaymentVerified := true
        status := .preparing
        statusHistory := order.statusHistory ++
          [⟨.preparing, now, "Payment verified and order confirmed by seller"⟩] } ∧
    (verifyPayment oid userId now orders products).products = products := by
  unfold verifyPayment
  split
  next hnone =>
    rw [hfind] at hnone
    exact Option.noConfusion hnone
  next order2 hsome =>
    rw [hfind] at hsome
    injection hsome with he
    subst he
    rw [if_neg (by simp [hown])]
    exact ⟨rfl, rfl, rfl⟩

/-- C8 witness: re-verifying an already verified, already completed order
still succeeds and forces the status back to `preparing`. -/
theorem verifyPayment_spec_witness :
    (verifyPayment 1 7 9
        [⟨1, 5, 7, [], 50, "M1", none, "qr", none, .completed,
          [⟨.pending, 0, "Order placed"⟩], true, false, false, "pickup",
          none, 0⟩] []).result =
      .ok { (⟨1, 5, 7, [], 50, "M1", none, "qr", none, .completed,
          [⟨.pending, 0, "Order placed"⟩], true, false, false, "pickup",
          none, 0⟩ : Order) with
        isPaymentVerified := true
        status := .preparing
        statusHistory := [⟨.pending, 0, "Order placed"⟩] ++
          [⟨.preparing, 9, "Payment verified and order confirmed by seller"⟩] } ∧
    (verifyPayment 1 7 9
        [⟨1, 5, 7, [], 50, "M1", none, "qr", none, .completed,
          [⟨.pending, 0, "Order placed"⟩], true, false, false, "pickup",
          none, 0⟩] []).products = [] :=
  ⟨(verifyPayment_spec 1 7 9
      [⟨1, 5, 7, [], 50, "M1", none, "qr", none, .completed,
        [⟨.pending, 0, "Order placed"⟩], true, false, false, "pickup",
        none, 0⟩] []
      ⟨1, 5, 7, [], 50, "M1", none, "qr", none, .completed,
        [⟨.pending, 0, "Order placed"⟩], true, false, false, "pickup",
        none, 0⟩ (by rfl) rfl).1,
    (verifyPayment_spec 1 7 9
      [⟨1, 5, 7, [], 50, "M1", none, "qr", none, .completed,
        [⟨.pending, 0, "Order placed"⟩], true, false, false, "pickup",
        none, 0⟩] []
      ⟨1, 5, 7, [], 50, "M1", none, "qr", none, .completed,
        [⟨.pending, 0, "Order placed"⟩], true, false, false, "pickup",
        none, 0⟩ (by rfl) rfl).2.2⟩

/-- C9: when a cart line passes the availability check (the product
resolves, is available, and has enough stock), processing the line
succeeds, and the low-stock event list is extended by an event to that
product's seller exactly when the post-decrement quantity is strictly
positive and at most the product's threshold; in particular a decrement
down to exactly zero emits nothing. -/
theorem lowStock_event_iff (files : List UploadedFile) (st : ProcState)
    (item : CartItem) (product : Product)
    (hfind : findProduct st.products item.productId = some product)
    (hav : ¬(product.isAvailable = false ∨ product.quantity < item.quantity)) :
    ∃ st', processLine files st item = .ok st' ∧
      ((0 < product.quantity - item.quantity ∧
          product.quantity - item.quantity ≤ product.lowStockThreshold) →
        st'.lowStockEvents = st.lowStockEvents ++
          [⟨product.seller,
            { product with quantity := product.quantity - item.quantity }⟩]) ∧
      (¬(0 < product.quantity - item.quantity ∧
          product.quantity - item.quantity ≤ product.lowStockThreshold) →
        st'.lowStockEvents = st.lowStockEvents) ∧
      (product.quantity - item.quantity = 0 →
        st'.lowStockEvents = st.lowStockEvents) := by
  cases hres : processLine files st item with
  | fail st2 e =>
    exfalso
    unfold processLine at hres
    rw [hfind] at hres
    simp only [] at hres
    split at hres
    next hcond => exact hav hcond
    next hcond => exact LineResult.noConfusion hres
  | ok st' =>
    obtain ⟨product2, b0, pp, hfind2, hav2, hb0, hps, hbk, hev⟩ :=
      processLine_ok_parts hres
    rw [hfind] at hfind2
    injection hfind2 with he
    subst he
    refine ⟨st', rfl, ?_, ?_, ?_⟩
    · intro hc
      rw [hev, if_pos ⟨hc.2, hc.1⟩]
    · intro hc
      rw [hev, if_neg (fun hc2 => hc ⟨hc2.2, hc2.1⟩)]
    · intro h0
      rw [hev, if_neg (fun hc2 => by omega)]

/-- C9 witness: decrementing a product from 5 to 3 with threshold 4 emits
one low-stock event to its seller, appended to the event list. -/
theorem lowStock_event_iff_witness :
    ∃ st', processLine [] ⟨[⟨1, 7, "A", 10, 5, "kg", "", "M1", true, 4⟩], [], []⟩
        ⟨1, 2⟩ = .ok st' ∧
      ((0 < (⟨1, 7, "A", 10, 5, "kg", "", "M1", true, 4⟩ : Product).quantity - 2 ∧
          (⟨1, 7, "A", 10, 5, "kg", "", "M1", true, 4⟩ : Product).quantity - 2 ≤
            (⟨1, 7, "A", 10, 5, "kg", "", "M1", true, 4⟩ : Product).lowStockThreshold) →
        st'.lowStockEvents = [] ++
          [⟨7, { (⟨1, 7, "A", 10, 5, "kg", "", "M1", true, 4⟩ : Product) with
            quantity := (⟨1, 7, "A", 10, 5, "kg", "", "M1", true, 4⟩ : Product).quantity - 2 }⟩]) ∧
      (¬(0 < (⟨1, 7, "A", 10, 5, "kg", "", "M1", true, 4⟩ : Product).quantity - 2 ∧
          (⟨1, 7, "A", 10, 5, "kg", "", "M1", true, 4⟩ : Product).quantity - 2 ≤
            (⟨1, 7, "A", 10, 5, "kg", "", "M1", true, 4⟩ : Product).lowStockThreshold) →
        st'.lowStockEvents = []) ∧
      ((⟨1, 7, "A", 10, 5, "kg", "", "M1", true, 4⟩ : Product).quantity - 2 = 0 →
        st'.lowStockEvents = []) :=
  lowStock_event_iff [] ⟨[⟨1, 7, "A", 10, 5, "kg", "", "M1", true, 4⟩], [], []⟩
    ⟨1, 2⟩ ⟨1, 7, "A", 10, 5, "kg", "", "M1", true, 4⟩ (by rfl) (by decide)

/-- C10: `updateOrderStatus` never touches the product collection — for
every input (including a target status of `cancelled`) the products come
back unchanged, so a seller-initiated cancellation does not restore stock —
and on a valid, owned update the only change to the store is the target
order rewritten with the new status and one appended history entry. -/
theorem updateOrderStatus_frame (oid userId : Nat) (newStatus : OrderStatus)
    (note : Option String) (now : Int) (orders : List Order)
    (products : List Product) (order : Order) :
    (updateOrderStatus oid userId newStatus note now orders products).products =
      products ∧
    (newStatus ∈ validStatuses →
      findOrder orders oid = some order → order.seller = userId →
      (updateOrderStatus oid userId newStatus note now orders products).result =
        .ok { order with
          status := newStatus
          statusHistory := order.statusHistory ++
            [⟨newStatus, now,
              note.getD ("Status updated to " ++ statusToString newStatus)⟩] } ∧
      (updateOrderStatus oid userId newStatus note now orders products).orders =
        saveOrder orders { order with
          status := newStatus
          statusHistory := order.statusHistory ++
            [⟨newStatus, now,
              note.getD ("Status updated to " ++ statusToString newStatus)⟩] }) := by
  constructor
  · unfold updateOrderStatus
    split
    · rfl
    · split
      · rfl
      · split
        · rfl
        · rfl
  · intro hval hfind hown
    unfold updateOrderStatus
    rw [if_neg (fun hc => hc hval)]
    split
    next hnone =>
      rw [hfind] at hnone
      exact Option.noConfusion hnone
    next order2 hsome =>
      rw [hfind] at hsome
      injection hsome with he
      subst he
      rw [if_neg (by simp [hown])]
      exact ⟨rfl, rfl⟩

/-- C10 witness: a seller cancelling a pending order through the status
route changes the order's status and history but leaves the product
collection — including the stock of the ordered product — unchanged. -/
theorem updateOrderStatus_frame_witness :
    (updateOrderStatus 1 7 .cancelled (some "no show") 9
        [⟨1, 5, 7, [⟨1, "A", 10, 2, "kg", ""⟩], 20, "M1", none, "qr", none,
          .pending, [⟨.pending, 0, "Order placed"⟩], false, false, false,
          "pickup", none, 0⟩]
        [⟨1, 7, "A", 10, 3, "kg", "", "M1", true, 2⟩]).products =
      [⟨1, 7, "A", 10, 3, "kg", "", "M1", true, 2⟩] ∧
    (updateOrderStatus 1 7 .cancelled (some "no show") 9
        [⟨1, 5, 7, [⟨1, "A", 10, 2, "kg", ""⟩], 20, "M1", none, "qr", none,
          .pending, [⟨.pending, 0, "Order placed"⟩], false, false, false,
          "pickup", none, 0⟩]
        [⟨1, 7, "A", 10, 3, "kg", "", "M1", true, 2⟩]).result =
      .ok { (⟨1, 5, 7, [⟨1, "A", 10, 2, "kg", ""⟩], 20, "M1", none, "qr", none,
          .pending, [⟨.pending, 0, "Order placed"⟩], false, false, false,
          "pickup", none, 0⟩ : Order) with
        status := .cancelled
        statusHistory := [⟨.pending, 0, "Order placed"⟩] ++
          [⟨.cancelled, 9, (some "no show").getD
            ("Status updated to " ++ statusToString .cancelled)⟩] } := by
  have h := updateOrderStatus_frame 1 7 .cancelled (some "no show") 9
    [⟨1, 5, 7, [⟨1, "A", 10, 2, "kg", ""⟩], 20, "M1", none, "qr", none,
      .pending, [⟨.pending, 0, "Order placed"⟩], false, false, false,
      "pickup", none, 0⟩]
    [⟨1, 7, "A", 10, 3, "kg", "", "M1", true, 2⟩]
    ⟨1, 5, 7, [⟨1, "A", 10, 2, "kg", ""⟩], 20, "M1", none, "qr", none,
      .pending, [⟨.pending, 0, "Order placed"⟩], false, false, false,
      "pickup", none, 0⟩
  exact ⟨h.1, (h.2 (by simp [validStatuses]) (by rfl) rfl).1⟩

end MealChoice
